import Mathlib

/-!
Verification of the STRling C parser (`src/bindings/c/src/core/parser.c`)
against its natural-language specification.

The parser is shallowly embedded: the input text is a `List Char`, the C
cursor (`text`, `i`) is represented by the remaining input `rest` together
with the byte offset `pos` (so `rest = text[pos..]`), and every C `while`
loop becomes a helper with an explicit iteration bound equal to the length
of the remaining input (each loop iteration consumes at least one input
character, so the bound is never the reason a loop stops).  The mutually
recursive parse functions take a fuel argument; the top entry point supplies
`16 * (length + 2)` fuel, which is ample because every fuel decrement
accompanies parsing progress.

C strings are NUL-terminated: a buffer handed to a node constructor is cut
at its first NUL (`cString`), exactly as `strlen`/`strcpy` would see it.
-/

namespace STRling

/-- The five pattern flags, all false by default. -/
structure Flags where
  ignoreCase : Bool
  multiline : Bool
  dotAll : Bool
  unicode : Bool
  extended : Bool
deriving DecidableEq, Repr

def defaultFlags : Flags := ⟨false, false, false, false, false⟩

/-- A diagnostic: message and byte offset, as in `strling_error_create`. -/
structure Err where
  message : String
  position : Nat
deriving DecidableEq, Repr

/-- Class items, mirroring `STRlingClassItem`. -/
inductive ClassItem where
  | lit (value : List Char)
  | range (rangeFrom rangeTo : List Char)
  | esc (etype : Char) (prop : Option (List Char))

/-- AST nodes, mirroring `STRlingASTNode`.  Anchor kinds, look directions and
quantifier modes are the strings the C code passes to the constructors. -/
inductive Node where
  | lit (value : List Char)
  | dot
  | anchor (kind : String)
  | charClass (neg : Bool) (items : List ClassItem)
  | group (capturing : Bool) (body : Option Node) (name : Option (List Char)) (atomic : Bool)
  | look (dir : String) (neg : Bool) (body : Option Node)
  | quant (child : Node) (minv maxv : Int) (mode : String)
  | backref (num : Int) (name : Option (List Char))
  | seq (parts : List Node)
  | alt (branches : List Node)

/-- A C string value: the characters before the first NUL byte. -/
def cString (l : List Char) : List Char := l.takeWhile (fun c => c ≠ '\x00')

/-- Parser state: cursor (`rest`/`pos`/`extendedMode`/`inClass`) plus the
capture table and the latched error of the `Parser` struct. -/
structure PState where
  rest : List Char
  pos : Nat
  extendedMode : Bool
  inClass : Nat
  capCount : Nat
  capNames : List (List Char)
  error : Option Err
deriving Repr

/-! ## Cursor operations -/

def cursorEof (s : PState) : Bool := s.rest.isEmpty

def cursorPeek (s : PState) (off : Nat) : Char := s.rest.getD off '\x00'

def cursorTake (s : PState) : Char × PState :=
  match s.rest with
  | [] => ('\x00', s)
  | c :: r => (c, { s with rest := r, pos := s.pos + 1 })

/-- The prefix comparison done by `strncmp` in `cursor_match`. -/
def listIsPrefix : List Char → List Char → Bool
  | [], _ => true
  | _ :: _, [] => false
  | a :: as, b :: bs => a == b && listIsPrefix as bs

def cursorMatch (s : PState) (w : List Char) : Bool × PState :=
  if listIsPrefix w s.rest then
    (true, { s with rest := s.rest.drop w.length, pos := s.pos + w.length })
  else (false, s)

def isWsChar (c : Char) : Bool := c = ' ' || c = '\t' || c = '\r' || c = '\n'

/-- The inner loop of `cursor_skip_ws_and_comments` that skips a `#` comment
up to (excluding) the end of the line. -/
def skipCommentGo : Nat → PState → PState
  | 0, s => s
  | f + 1, s =>
    if ¬ cursorEof s ∧ cursorPeek s 0 ≠ '\r' ∧ cursorPeek s 0 ≠ '\n' then
      skipCommentGo f (cursorTake s).2
    else s

def skipWsGo : Nat → PState → PState
  | 0, s => s
  | f + 1, s =>
    if cursorEof s then s
    else
      let ch := cursorPeek s 0
      if isWsChar ch then skipWsGo f (cursorTake s).2
      else if ch = '#' then skipWsGo f (skipCommentGo s.rest.length s)
      else s

def cursorSkipWs (s : PState) : PState :=
  if ¬ s.extendedMode ∨ s.inClass > 0 then s else skipWsGo s.rest.length s

/-! ## Error latching and character predicates -/

def parserSetError (s : PState) (msg : String) (p : Nat) : PState :=
  if s.error.isSome then s else { s with error := some ⟨msg, p⟩ }

def controlEscape (c : Char) : Char :=
  if c = 'n' then '\n'
  else if c = 'r' then '\r'
  else if c = 't' then '\t'
  else if c = 'f' then '\x0c'
  else if c = 'v' then '\x0b'
  else '\x00'

def isControlEscape (c : Char) : Bool :=
  c = 'n' || c = 'r' || c = 't' || c = 'f' || c = 'v'

def isDigitC (c : Char) : Bool := '0' ≤ c && c ≤ '9'

def isXDigitC (c : Char) : Bool :=
  isDigitC c || ('a' ≤ c && c ≤ 'f') || ('A' ≤ c && c ≤ 'F')

def toLowerC (c : Char) : Char :=
  if 'A' ≤ c ∧ c ≤ 'Z' then Char.ofNat (c.toNat + 32) else c

def hexVal (c : Char) : Nat :=
  if isDigitC c then c.toNat - '0'.toNat else (toLowerC c).toNat - 'a'.toNat + 10

/-! ## Diagnostic messages (verbatim from parser.c) -/

def msgUnmatchedParen : String := "Unmatched \x27)\x27"
def msgTrailing : String := "Unexpected trailing input"
def msgAltLeft : String := "Alternation lacks left-hand side"
def msgAltRight : String := "Alternation lacks right-hand side"
def msgInvalidQuantNothing : String := "Invalid quantifier - nothing to quantify"
def msgIncompleteQuant : String := "Incomplete quantifier"
def msgCannotQuantAnchor : String := "Cannot quantify anchor"
def msgExpectedOpenParen : String := "Expected \x27(\x27"
def msgUntermGroup : String := "Unterminated group"
def msgUntermLookbehind : String := "Unterminated lookbehind"
def msgUntermLookahead : String := "Unterminated lookahead"
def msgUntermGroupName : String := "Unterminated group name"
def msgDupGroupName : String := "Duplicate group name"
def msgUntermAtomic : String := "Unterminated atomic group"
def msgExpectedOpenBracket : String := "Expected \x27[\x27"
def msgUntermClass : String := "Unterminated character class"
def msgExpectedBackslash : String := "Expected \x27\\\x27"
def msgExpectedBraceP : String := "Expected \x27\x7b\x27 after \\p/\\P"
def msgUntermP : String := "Unterminated \\p\x7b...\x7d"
def msgBackrefUndefined : String := "Backreference to undefined group"
def msgExpectedAngleK : String := "Expected \x27<\x27 after \\k"
def msgUntermNamedBackref : String := "Unterminated named backref"
def msgInvalidXHH : String := "Invalid \\xHH escape"
def msgUntermXBrace : String := "Unterminated \\x\x7b...\x7d"
def msgInvalidUHHHH : String := "Invalid \\uHHHH escape"
def msgUntermUBrace : String := "Unterminated \\u\x7b...\x7d"

/-! ## `%flags` directive (`parse_directives`) -/

def isSepChar (c : Char) : Bool :=
  c = ' ' || c = '\t' || c = ',' || c = '[' || c = ']'

def applyFlagLetter (fl : Flags) (c : Char) : Flags :=
  if c = 'i' ∨ c = 'I' then { fl with ignoreCase := true }
  else if c = 'm' ∨ c = 'M' then { fl with multiline := true }
  else if c = 's' ∨ c = 'S' then { fl with dotAll := true }
  else if c = 'u' ∨ c = 'U' then { fl with unicode := true }
  else if c = 'x' ∨ c = 'X' then { fl with extended := true }
  else fl

/-- Characters that keep the flag-letter loop of `parse_directives` running. -/
def isRunChar (c : Char) : Bool :=
  c = 'i' || c = 'm' || c = 's' || c = 'u' || c = 'x' ||
  c = 'I' || c = 'M' || c = 'S' || c = 'U' || c = 'X' ||
  c = ',' || c = ' ' || c = '\t'

def flagsWord : List Char := ['%', 'f', 'l', 'a', 'g', 's']

/-- `strstr(text, "%flags")`: the suffix of `text` starting at the first
occurrence of `%flags`, if any. -/
def strstrFlags : List Char → Option (List Char)
  | [] => none
  | c :: t => if listIsPrefix flagsWord (c :: t) then some (c :: t) else strstrFlags t

def skipSeps : List Char → List Char
  | [] => []
  | c :: t => if isSepChar c then skipSeps t else c :: t

def letterRun (fl : Flags) : List Char → Flags × List Char
  | [] => (fl, [])
  | c :: t => if isRunChar c then letterRun (applyFlagLetter fl c) t else (fl, c :: t)

def skipToEol : List Char → List Char
  | [] => []
  | c :: t => if c ≠ '\n' ∧ c ≠ '\r' then skipToEol t else c :: t

def skipNewlines : List Char → List Char
  | [] => []
  | c :: t => if c = '\n' ∨ c = '\r' then skipNewlines t else c :: t

def parseDirectives (text : List Char) : Flags × List Char :=
  match strstrFlags text with
  | none => (defaultFlags, text)
  | some suf =>
    let afterWord := suf.drop 6
    let afterSeps := skipSeps afterWord
    let (fl, afterRun) := letterRun defaultFlags afterSeps
    (fl, skipNewlines (skipToEol afterRun))

/-! ## Bounded loops shared by several productions -/

/-- The digit loop of `parse_quant_if_any`. -/
def readIntGo : Nat → Nat → PState → Nat × PState
  | 0, v, s => (v, s)
  | f + 1, v, s =>
    if isDigitC (cursorPeek s 0) then
      let d := (cursorPeek s 0).toNat - '0'.toNat
      readIntGo f (v * 10 + d) (cursorTake s).2
    else (v, s)

/-- The name/property reader: consumes characters until the delimiter, a NUL,
or 255 characters have been read (the C buffers are `char name[256]`). -/
def readDelim (stop : Char) : Nat → List Char → PState → List Char × PState
  | 0, acc, s => (acc, s)
  | f + 1, acc, s =>
    if cursorPeek s 0 ≠ stop ∧ cursorPeek s 0 ≠ '\x00' ∧ acc.length < 255 then
      let (c, s') := cursorTake s
      readDelim stop f (acc ++ [c]) s'
    else (acc, s)

/-- The hex-digit loop of `\x{...}` and `\u{...}`. -/
def readHexGo : Nat → Nat → PState → Nat × PState
  | 0, v, s => (v, s)
  | f + 1, v, s =>
    if isXDigitC (cursorPeek s 0) then
      let (c, s') := cursorTake s
      readHexGo f (v * 16 + hexVal c) s'
    else (v, s)

/-- The numbered-backreference digit loop of `parse_escape_atom`: errors as
soon as the running number exceeds the current capture count. -/
def readBackrefGo (startPos : Nat) : Nat → Nat → PState → Option Node × PState
  | 0, num, s => (some (Node.backref (Int.ofNat num) none), s)
  | f + 1, num, s =>
    if isDigitC (cursorPeek s 0) then
      let d := (cursorPeek s 0).toNat - '0'.toNat
      let s' := (cursorTake s).2
      let num' := num * 10 + d
      if num' > s'.capCount then (none, parserSetError s' msgBackrefUndefined startPos)
      else readBackrefGo startPos f num' s'
    else (some (Node.backref (Int.ofNat num) none), s)

def hasCapName (s : PState) (name : List Char) : Bool := s.capNames.contains name

/-! ## Quantifiers (`parse_quant_if_any`) -/

def Node.isAnchor : Node → Bool
  | Node.anchor _ => true
  | _ => false

/-- Common tail of `parse_quant_if_any`: anchor check, then the optional
lazy/possessive marker. -/
def quantFinish (s : PState) (ch : Node) (minv maxv : Int) : Option Node × PState :=
  if ch.isAnchor then (some ch, parserSetError s msgCannotQuantAnchor s.pos)
  else
    let nxt := cursorPeek s 0
    if nxt = '?' then (some (Node.quant ch minv maxv "Lazy"), (cursorTake s).2)
    else if nxt = '+' then (some (Node.quant ch minv maxv "Possessive"), (cursorTake s).2)
    else (some (Node.quant ch minv maxv "Greedy"), s)

/-- Brace-quantifier tail: requires the closing `}` ("Incomplete quantifier"
otherwise, returning the child as the C code does). -/
def quantClose (s : PState) (ch : Node) (minv maxv : Int) : Option Node × PState :=
  if cursorPeek s 0 ≠ '\x7d' then
    (some ch, parserSetError s msgIncompleteQuant s.pos)
  else quantFinish (cursorTake s).2 ch minv maxv

def parseQuantIfAny (s : PState) (child : Option Node) : Option Node × PState :=
  if s.error.isSome then (child, s)
  else
    match child with
    | none => (none, s)
    | some ch =>
      let c := cursorPeek s 0
      if c = '*' then quantFinish (cursorTake s).2 ch 0 (-1)
      else if c = '+' then quantFinish (cursorTake s).2 ch 1 (-1)
      else if c = '?' then quantFinish (cursorTake s).2 ch 0 1
      else if c = '\x7b' then
        let saveRest := s.rest
        let savePos := s.pos
        let s1 := (cursorTake s).2
        let hasMin := isDigitC (cursorPeek s1 0)
        let (m, s2) := readIntGo s1.rest.length 0 s1
        if ¬ hasMin then
          -- not a valid quantifier: backtrack to the saved cursor
          (some ch, { s2 with rest := saveRest, pos := savePos })
        else if cursorPeek s2 0 = ',' then
          let s3 := (cursorTake s2).2
          if cursorPeek s3 0 = '\x7d' then quantClose s3 ch (Int.ofNat m) (-1)
          else
            let (n, s4) := readIntGo s3.rest.length 0 s3
            quantClose s4 ch (Int.ofNat m) (Int.ofNat n)
        else quantClose s2 ch (Int.ofNat m) (Int.ofNat m)
      else (some ch, s)

/-! ## Character classes (`parse_char_class`, `parse_class_escape`) -/

def parseClassEscape (s : PState) : Option ClassItem × PState :=
  let (c0, s) := cursorTake s
  if c0 ≠ '\\' then (none, parserSetError s msgExpectedBackslash s.pos)
  else
    let nxt := cursorPeek s 0
    if nxt = 'd' ∨ nxt = 'D' ∨ nxt = 'w' ∨ nxt = 'W' ∨ nxt = 's' ∨ nxt = 'S' then
      let (c, s) := cursorTake s
      (some (ClassItem.esc c none), s)
    else if nxt = 'p' ∨ nxt = 'P' then
      let (tp, s) := cursorTake s
      let (ok, s) := cursorMatch s ['\x7b']
      if ¬ ok then (none, parserSetError s msgExpectedBraceP s.pos)
      else
        let (prop, s) := readDelim '\x7d' s.rest.length [] s
        let (ok2, s) := cursorMatch s ['\x7d']
        if ¬ ok2 then (none, parserSetError s msgUntermP s.pos)
        else (some (ClassItem.esc tp (some prop)), s)
    else if isControlEscape nxt then
      (some (ClassItem.lit (cString [controlEscape nxt])), (cursorTake s).2)
    else if nxt = 'b' then
      (some (ClassItem.lit (cString ['\x08'])), (cursorTake s).2)
    else if nxt = '0' then
      (some (ClassItem.lit (cString ['\x00'])), (cursorTake s).2)
    else
      let (c, s) := cursorTake s
      (some (ClassItem.lit (cString [c])), s)

/-- The item loop of `parse_char_class`. -/
def classItemsGo : Nat → List ClassItem → PState → Option (List ClassItem) × PState
  | 0, acc, s => (some acc, s)
  | f + 1, acc, s =>
    if ¬ cursorEof s ∧ cursorPeek s 0 ≠ ']' then
      let (item?, s) :=
        if cursorPeek s 0 = '\\' then parseClassEscape s
        else
          let (ch, s) := cursorTake s
          if cursorPeek s 0 = '-' ∧ cursorPeek s 1 ≠ ']' then
            let s := (cursorTake s).2
            let (endCh, s) := cursorTake s
            (some (ClassItem.range (cString [ch]) (cString [endCh])), s)
          else (some (ClassItem.lit (cString [ch])), s)
      if s.error.isSome then (none, s)
      else
        match item? with
        | none => classItemsGo f acc s
        | some it => classItemsGo f (acc ++ [it]) s
    else (some acc, s)

def parseCharClass (s : PState) : Option Node × PState :=
  let (c0, s) := cursorTake s
  if c0 ≠ '[' then (none, parserSetError s msgExpectedOpenBracket s.pos)
  else
    let s := { s with inClass := s.inClass + 1 }
    let (neg, s) :=
      if cursorPeek s 0 = '^' then (true, (cursorTake s).2) else (false, s)
    let (items?, s) := classItemsGo s.rest.length [] s
    match items? with
    | none => (none, { s with inClass := s.inClass - 1 })
    | some items =>
      if cursorEof s then
        let s := parserSetError s msgUntermClass s.pos
        (none, { s with inClass := s.inClass - 1 })
      else
        let s := (cursorTake s).2
        (some (Node.charClass neg items), { s with inClass := s.inClass - 1 })

/-! ## Escapes outside classes (`parse_escape_atom`) -/

/-- Tail of the named backreference `\k<...`: read the name, require the
closing `>`, then check the capture table.  `startPos` is the offset of the
backslash, where the C code reports these errors. -/
def kEscapeTail (startPos : Nat) (s : PState) : Option Node × PState :=
  let (name, s) := readDelim '>' s.rest.length [] s
  let (ok2, s) := cursorMatch s ['>']
  if ¬ ok2 then (none, parserSetError s msgUntermNamedBackref startPos)
  else if ¬ hasCapName s name then (none, parserSetError s msgBackrefUndefined startPos)
  else (some (Node.backref (-1) (some name)), s)

/-- Tail of `\p` / `\P` after the opening brace: read the property name and
require the closing brace. -/
def pEscapeTail (tp : Char) (startPos : Nat) (s : PState) : Option Node × PState :=
  let (prop, s) := readDelim '\x7d' s.rest.length [] s
  let (ok2, s) := cursorMatch s ['\x7d']
  if ¬ ok2 then (none, parserSetError s msgUntermP startPos)
  else (some (Node.charClass false [ClassItem.esc tp (some prop)]), s)

def parseEscapeAtom (s : PState) : Option Node × PState :=
  let startPos := s.pos
  let (c0, s) := cursorTake s
  if c0 ≠ '\\' then (none, parserSetError s msgExpectedBackslash s.pos)
  else
    let nxt := cursorPeek s 0
    if isDigitC nxt ∧ nxt ≠ '0' then
      readBackrefGo startPos s.rest.length 0 s
    else if nxt = 'b' then (some (Node.anchor "WordBoundary"), (cursorTake s).2)
    else if nxt = 'B' then (some (Node.anchor "NotWordBoundary"), (cursorTake s).2)
    else if nxt = 'A' then (some (Node.anchor "AbsoluteStart"), (cursorTake s).2)
    else if nxt = 'Z' then (some (Node.anchor "EndBeforeFinalNewline"), (cursorTake s).2)
    else if nxt = 'k' then
      let s := (cursorTake s).2
      let (ok, s) := cursorMatch s ['<']
      if ¬ ok then (none, parserSetError s msgExpectedAngleK startPos)
      else kEscapeTail startPos s
    else if nxt = 'd' ∨ nxt = 'D' ∨ nxt = 'w' ∨ nxt = 'W' ∨ nxt = 's' ∨ nxt = 'S' then
      (some (Node.charClass false [ClassItem.esc nxt none]), (cursorTake s).2)
    else if nxt = 'p' ∨ nxt = 'P' then
      let (tp, s) := cursorTake s
      let (ok, s) := cursorMatch s ['\x7b']
      if ¬ ok then (none, parserSetError s msgExpectedBraceP startPos)
      else pEscapeTail tp startPos s
    else if isControlEscape nxt then
      (some (Node.lit (cString [controlEscape nxt])), (cursorTake s).2)
    else if nxt = 'x' then
      let s := (cursorTake s).2
      if cursorPeek s 0 = '\x7b' then
        let s := (cursorTake s).2
        let (val, s) := readHexGo s.rest.length 0 s
        let (ok, s) := cursorMatch s ['\x7d']
        if ¬ ok then (none, parserSetError s msgUntermXBrace startPos)
        else
          -- parser.c substitutes '?' for codepoints >= 128
          let buf : List Char := if val < 128 then [Char.ofNat val] else ['?']
          (some (Node.lit (cString buf)), s)
      else
        let (h1, s) := cursorTake s
        let (h2, s) := cursorTake s
        if ¬ (isXDigitC h1 ∧ isXDigitC h2) then
          (none, parserSetError s msgInvalidXHH startPos)
        else (some (Node.lit (cString [Char.ofNat (hexVal h1 * 16 + hexVal h2)])), s)
    else if nxt = 'u' then
      let s := (cursorTake s).2
      if cursorPeek s 0 = '\x7b' then
        let s := (cursorTake s).2
        let (_v, s) := readHexGo s.rest.length 0 s
        let (ok, s) := cursorMatch s ['\x7d']
        if ¬ ok then (none, parserSetError s msgUntermUBrace startPos)
        else (some (Node.lit (cString ['?'])), s)
      else
        let (c1, s) := cursorTake s
        if ¬ isXDigitC c1 then (none, parserSetError s msgInvalidUHHHH startPos) else
        let (c2, s) := cursorTake s
        if ¬ isXDigitC c2 then (none, parserSetError s msgInvalidUHHHH startPos) else
        let (c3, s) := cursorTake s
        if ¬ isXDigitC c3 then (none, parserSetError s msgInvalidUHHHH startPos) else
        let (c4, s) := cursorTake s
        if ¬ isXDigitC c4 then (none, parserSetError s msgInvalidUHHHH startPos) else
        let val := ((hexVal c1 * 16 + hexVal c2) * 16 + hexVal c3) * 16 + hexVal c4
        (some (Node.lit (cString [Char.ofNat (if val < 128 then val else '?'.toNat)])), s)
    else if nxt = '0' then
      (some (Node.lit (cString ['\x00'])), (cursorTake s).2)
    else
      let (c, s) := cursorTake s
      (some (Node.lit (cString [c])), s)

/-! ## Sequences, alternation, groups (the mutually recursive productions) -/

def finishSeq : List Node → Option Node
  | [] => some (Node.seq [])
  | [x] => some x
  | parts => some (Node.seq parts)

/-- Common tail of every branch of `parse_group_or_look`: check the latched
error, then require the closing parenthesis. -/
def groupFinish (s : PState) (body : Option Node) (mk : Option Node → Node)
    (msg : String) : Option Node × PState :=
  if s.error.isSome then (none, s)
  else
    let (ok, s') := cursorMatch s [')']
    if ¬ ok then (none, parserSetError s' msg s'.pos)
    else (some (mk body), s')

mutual

def parseAlt : Nat → PState → Option Node × PState
  | 0, s => (none, s)
  | f + 1, s =>
    if s.error.isSome then (none, s)
    else
      let s := cursorSkipWs s
      if cursorPeek s 0 = '|' then (none, parserSetError s msgAltLeft s.pos)
      else
        let (first?, s) := parseSeq f s
        if s.error.isSome then (none, s)
        else
          match first? with
          | none => (none, s)
          | some first =>
            let s := cursorSkipWs s
            if cursorPeek s 0 = '|' then parseAltLoop f [first] s
            else (some first, s)

def parseAltLoop : Nat → List Node → PState → Option Node × PState
  | 0, _, s => (none, s)
  | f + 1, branches, s =>
    if cursorPeek s 0 = '|' then
      let s := (cursorTake s).2
      let s := cursorSkipWs s
      if cursorEof s ∨ cursorPeek s 0 = '|' then
        (none, parserSetError s msgAltRight s.pos)
      else
        let (branch?, s) := parseSeq f s
        if s.error.isSome then (none, s)
        else
          match branch? with
          | none => (none, s)
          | some b => parseAltLoop f (branches ++ [b]) (cursorSkipWs s)
    else (some (Node.alt branches), s)

def parseSeq : Nat → PState → Option Node × PState
  | 0, s => (none, s)
  | f + 1, s =>
    if s.error.isSome then (none, s)
    else parseSeqLoop f [] s

def parseSeqLoop : Nat → List Node → PState → Option Node × PState
  | 0, _, s => (none, s)
  | f + 1, parts, s =>
    let s := cursorSkipWs s
    let ch := cursorPeek s 0
    if (ch = '*' ∨ ch = '+' ∨ ch = '?' ∨ ch = '\x7b') ∧ parts.isEmpty then
      (none, parserSetError s msgInvalidQuantNothing s.pos)
    else if ch = '\x00' ∨ ch = '|' ∨ ch = ')' then (finishSeq parts, s)
    else
      let (atom?, s) := parseAtom f s
      if s.error.isSome then (none, s)
      else
        match atom? with
        | none => (finishSeq parts, s)
        | some a =>
          let (atom2?, s) := parseQuantIfAny s (some a)
          if s.error.isSome then (none, s)
          else
            match atom2? with
            | some a2 => parseSeqLoop f (parts ++ [a2]) s
            | none => parseSeqLoop f parts s

def parseAtom : Nat → PState → Option Node × PState
  | 0, s => (none, s)
  | f + 1, s =>
    if s.error.isSome then (none, s)
    else
      let s := cursorSkipWs s
      let ch := cursorPeek s 0
      if ch = '\x00' then (none, s)
      else if ch = '.' then (some Node.dot, (cursorTake s).2)
      else if ch = '^' then (some (Node.anchor "Start"), (cursorTake s).2)
      else if ch = '$' then (some (Node.anchor "End"), (cursorTake s).2)
      else if ch = '(' then parseGroupOrLook f s
      else if ch = '[' then parseCharClass s
      else if ch = '\\' then parseEscapeAtom s
      else if ch = ')' then (none, parserSetError s msgUnmatchedParen s.pos)
      else if ch = '|' then (none, s)
      else
        let (c, s) := cursorTake s
        (some (Node.lit (cString [c])), s)

def parseGroupOrLook : Nat → PState → Option Node × PState
  | 0, s => (none, s)
  | f + 1, s =>
    let (c0, s) := cursorTake s
    if c0 ≠ '(' then (none, parserSetError s msgExpectedOpenParen s.pos)
    else
      let (m1, s) := cursorMatch s ['?', ':']
      if m1 then
        let (body, s) := parseAlt f s
        groupFinish s body (fun b => Node.group false b none false) msgUntermGroup
      else
        let (m2, s) := cursorMatch s ['?', '<', '=']
        if m2 then
          let (body, s) := parseAlt f s
          groupFinish s body (fun b => Node.look "Behind" false b) msgUntermLookbehind
        else
          let (m3, s) := cursorMatch s ['?', '<', '!']
          if m3 then
            let (body, s) := parseAlt f s
            groupFinish s body (fun b => Node.look "Behind" true b) msgUntermLookbehind
          else
            let (m4, s) := cursorMatch s ['?', '<']
            if m4 then
              let (name, s) := readDelim '>' s.rest.length [] s
              let (ok, s) := cursorMatch s ['>']
              if ¬ ok then (none, parserSetError s msgUntermGroupName s.pos)
              else if hasCapName s name then (none, parserSetError s msgDupGroupName s.pos)
              else
                let s := { s with capCount := s.capCount + 1, capNames := s.capNames ++ [name] }
                let (body, s) := parseAlt f s
                groupFinish s body (fun b => Node.group true b (some name) false) msgUntermGroup
            else
              let (m5, s) := cursorMatch s ['?', '>']
              if m5 then
                let (body, s) := parseAlt f s
                groupFinish s body (fun b => Node.group false b none true) msgUntermAtomic
              else
                let (m6, s) := cursorMatch s ['?', '=']
                if m6 then
                  let (body, s) := parseAlt f s
                  groupFinish s body (fun b => Node.look "Ahead" false b) msgUntermLookahead
                else
                  let (m7, s) := cursorMatch s ['?', '!']
                  if m7 then
                    let (body, s) := parseAlt f s
                    groupFinish s body (fun b => Node.look "Ahead" true b) msgUntermLookahead
                  else
                    let s := { s with capCount := s.capCount + 1 }
                    let (body, s) := parseAlt f s
                    groupFinish s body (fun b => Node.group true b none false) msgUntermGroup

end

/-! ## Entry points (`parser_parse`, `strling_parse`) -/

def parserParse (fuel : Nat) (s : PState) : Option Node × PState :=
  let (node, s) := parseAlt fuel s
  if s.error.isSome then (none, s)
  else
    let s := cursorSkipWs s
    if ¬ cursorEof s then
      if cursorPeek s 0 = ')' then (none, parserSetError s msgUnmatchedParen s.pos)
      else (none, parserSetError s msgTrailing s.pos)
    else (node, s)

structure ParseResult where
  flags : Flags
  root : Option Node
  error : Option Err

def initState (extended : Bool) (src : List Char) : PState :=
  { rest := src, pos := 0, extendedMode := extended, inClass := 0,
    capCount := 0, capNames := [], error := none }

def strling_parse (text : List Char) : ParseResult :=
  let t := cString text
  let (fl, src) := parseDirectives t
  let (root, s) := parserParse (16 * (src.length + 2)) (initState fl.extended src)
  { flags := fl, root := root, error := s.error }

/-! ## Nested-group words: `m` capturing groups wrapped around `a` -/

def nestW : Nat → List Char
  | 0 => ['a']
  | m + 1 => '(' :: (nestW m ++ [')'])

def nestNode : Nat → Node
  | 0 => Node.lit ['a']
  | m + 1 => Node.group true (some (nestNode m)) none false

end STRling

namespace STRling

attribute [simp] cString cursorEof cursorPeek cursorTake cursorMatch listIsPrefix isWsChar
  skipCommentGo skipWsGo cursorSkipWs parserSetError controlEscape isControlEscape
  isDigitC isXDigitC toLowerC hexVal isSepChar applyFlagLetter isRunChar flagsWord
  strstrFlags skipSeps letterRun skipToEol skipNewlines parseDirectives readIntGo
  readDelim readHexGo readBackrefGo hasCapName Node.isAnchor quantFinish quantClose
  parseQuantIfAny parseClassEscape classItemsGo parseCharClass parseEscapeAtom
  kEscapeTail pEscapeTail
  finishSeq groupFinish parseAlt parseAltLoop parseSeq parseSeqLoop parseAtom
  parseGroupOrLook parserParse initState strling_parse defaultFlags

/-! ### Helper lemmas -/

theorem cString_of_no_nul {l : List Char} (h : '\x00' ∉ l) : cString l = l := by
  simp only [cString]
  rw [List.takeWhile_eq_self_iff]
  intro x hx
  simp only [ne_eq, decide_eq_true_eq]
  exact fun hx0 => h (hx0 ▸ hx)

theorem strstrFlags_of_no_percent {l : List Char} (h : '%' ∉ l) : strstrFlags l = none := by
  induction l with
  | nil => rfl
  | cons c t ih =>
    have hc : c ≠ '%' := fun hc => h (hc ▸ List.mem_cons_self c t)
    have ht : '%' ∉ t := fun m => h (List.mem_cons_of_mem c m)
    simp only [strstrFlags, flagsWord, listIsPrefix]
    simp [hc.symm, ih ht]

theorem parseDirectives_of_no_percent {l : List Char} (h : '%' ∉ l) :
    parseDirectives l = (defaultFlags, l) := by
  simp only [parseDirectives, strstrFlags_of_no_percent h]

theorem parserSetError_latch (s : PState) (m : String) (p : Nat) (h : s.error.isSome) :
    parserSetError s m p = s := by
  simp only [parserSetError, h, if_pos]

theorem parseAlt_err (fuel : Nat) (s : PState) (h : s.error.isSome) :
    parseAlt fuel s = (none, s) := by
  cases fuel with
  | zero => simp [parseAlt]
  | succ f => simp only [parseAlt, h, if_pos]

theorem parserParse_err (fuel : Nat) (s : PState) (h : s.error.isSome) :
    parserParse fuel s = (none, s) := by
  simp only [parserParse, parseAlt_err fuel s h, h, if_pos]

theorem parseQuantIfAny_no_quant_char (s : PState) (child : Option Node)
    (h1 : cursorPeek s 0 ≠ '*') (h2 : cursorPeek s 0 ≠ '+')
    (h3 : cursorPeek s 0 ≠ '?') (h4 : cursorPeek s 0 ≠ '\x7b') :
    parseQuantIfAny s child = (child, s) := by
  by_cases he : s.error.isSome
  · simp only [parseQuantIfAny, if_pos he]
  · cases child with
    | none => simp only [parseQuantIfAny, if_neg he]
    | some ch =>
      simp only [parseQuantIfAny, if_neg he]
      rw [if_neg h1, if_neg h2, if_neg h3, if_neg h4]

theorem readIntGo_no_digit (f : Nat) (v : Nat) (s : PState)
    (h : ¬ (isDigitC (cursorPeek s 0) = true)) : readIntGo f v s = (v, s) := by
  cases f with
  | zero => rfl
  | succ f => simp only [readIntGo, if_neg h]

theorem parseQuantIfAny_brace_backtrack (s : PState) (ch : Node)
    (he : s.error = none)
    (h0 : cursorPeek s 0 = '\x7b') (h1 : ¬ (isDigitC (cursorPeek s 1) = true)) :
    parseQuantIfAny s (some ch) = (some ch, s) := by
  obtain ⟨r, hr⟩ : ∃ r, s.rest = '\x7b' :: r := by
    cases hrest : s.rest with
    | nil => rw [cursorPeek, hrest] at h0; simp at h0
    | cons c r =>
      rw [cursorPeek, hrest] at h0
      simp only [List.getD_cons_zero] at h0
      exact ⟨r, by rw [h0]⟩
  have hes : s.error.isSome = false := by rw [he]; rfl
  have hpk1 : cursorPeek s 1 = r.getD 0 '\x00' := by
    rw [cursorPeek, hr]; simp [List.getD]
  simp only [parseQuantIfAny, hes, Bool.false_eq_true, if_false]
  rw [if_neg (show ¬ cursorPeek s 0 = '*' by rw [h0]; decide),
    if_neg (show ¬ cursorPeek s 0 = '+' by rw [h0]; decide),
    if_neg (show ¬ cursorPeek s 0 = '?' by rw [h0]; decide),
    if_pos h0]
  have htake : (cursorTake s).2 = { s with rest := r, pos := s.pos + 1 } := by
    simp only [cursorTake, hr]
  rw [htake]
  have hnd : ¬ (isDigitC (cursorPeek { s with rest := r, pos := s.pos + 1 } 0) = true) := by
    rwa [hpk1] at h1
  rw [readIntGo_no_digit _ _ _ hnd, if_pos hnd]

theorem applyFlagLetter_idem (fl : Flags) (c : Char) :
    applyFlagLetter (applyFlagLetter fl c) c = applyFlagLetter fl c := by
  simp only [applyFlagLetter]
  split_ifs <;> rfl

theorem letterRun_stops (c : Char) (r : List Char) (hc : isRunChar c = false) :
    ∀ (l : List Char) (fl : Flags), (∀ x ∈ l, isRunChar x = true) →
      letterRun fl (l ++ c :: r) = (l.foldl applyFlagLetter fl, c :: r) := by
  intro l
  induction l with
  | nil =>
    intro fl _
    simp only [List.nil_append, letterRun, hc, Bool.false_eq_true, if_false, List.foldl_nil]
  | cons x t ih =>
    intro fl hl
    have hx := hl x (List.mem_cons_self x t)
    simp only [List.cons_append, letterRun, hx, if_true, List.foldl_cons]
    exact ih _ (fun y hy => hl y (List.mem_cons_of_mem x hy))

end STRling

namespace STRling

theorem cursorMatch_one_neg (s : PState) (d : Char) (h : s.rest.head? ≠ some d) :
    cursorMatch s [d] = (false, s) := by
  cases hr : s.rest with
  | nil => simp [cursorMatch, listIsPrefix, hr]
  | cons c r =>
    rw [hr] at h
    simp only [List.head?_cons, ne_eq, Option.some.injEq] at h
    simp [cursorMatch, listIsPrefix, hr, Ne.symm h]

theorem readDelim_run (stop : Char) :
    ∀ (n : Nat) (acc : List Char) (s : PState) (f : Nat),
      acc.length + n = 255 → n ≤ f → n ≤ s.rest.length →
      (∀ c ∈ s.rest.take n, ¬ c = stop ∧ ¬ c = '\x00') →
      readDelim stop f acc s =
        (acc ++ s.rest.take n, { s with rest := s.rest.drop n, pos := s.pos + n }) := by
  intro n
  induction n with
  | zero =>
    intro acc s f hlen _ _ _
    have h255 : acc.length = 255 := by omega
    cases f with
    | zero => simp [readDelim]
    | succ f =>
      simp only [readDelim]
      rw [if_neg]
      · simp
      · simp [h255]
  | succ n ih =>
    intro acc s f hlen hf hrest hmem
    obtain ⟨c, r, hr⟩ : ∃ c r, s.rest = c :: r := by
      cases hsr : s.rest with
      | nil => rw [hsr] at hrest; simp at hrest
      | cons c r => exact ⟨c, r, rfl⟩
    obtain ⟨f', rfl⟩ : ∃ f', f = f' + 1 := ⟨f - 1, by omega⟩
    have hcm : c ∈ s.rest.take (n + 1) := by
      rw [hr, List.take_succ_cons]; exact List.mem_cons_self c _
    have hc := hmem c hcm
    have hpk : cursorPeek s 0 = c := by rw [cursorPeek, hr]; rfl
    have htake : cursorTake s = (c, { s with rest := r, pos := s.pos + 1 }) := by
      simp only [cursorTake, hr]
    simp only [readDelim]
    rw [if_pos ⟨by rw [hpk]; exact hc.1, by rw [hpk]; exact hc.2, by omega⟩, htake]
    rw [ih (acc ++ [c]) { s with rest := r, pos := s.pos + 1 } f'
      (by simp; omega) (by omega)
      (by simp only []; rw [hr] at hrest; simp at hrest; omega)
      (by intro x hx
          apply hmem x
          rw [hr, List.take_succ_cons]
          exact List.mem_cons_of_mem c hx)]
    rw [hr]
    simp [List.take_succ_cons, List.drop_succ_cons]
    omega

end STRling

namespace STRling

theorem cursorSkipWs_not_ext (s : PState) (h : s.extendedMode = false) : cursorSkipWs s = s := by
  simp [cursorSkipWs, h]

theorem parseAtom_route_group (f : Nat) (s : PState) (hext : s.extendedMode = false)
    (herr : s.error = none) (hpk : cursorPeek s 0 = '(') :
    parseAtom (f + 1) s = parseGroupOrLook f s := by
  simp only [parseAtom, herr, Option.isSome_none, Bool.false_eq_true, if_false,
    cursorSkipWs_not_ext s hext, hpk]
  rw [if_neg (by decide), if_neg (by decide), if_neg (by decide), if_neg (by decide)]
  simp

theorem parseAtom_route_escape (f : Nat) (s : PState) (hext : s.extendedMode = false)
    (herr : s.error = none) (hpk : cursorPeek s 0 = '\\') :
    parseAtom (f + 1) s = parseEscapeAtom s := by
  simp only [parseAtom, herr, Option.isSome_none, Bool.false_eq_true, if_false,
    cursorSkipWs_not_ext s hext, hpk]
  rw [if_neg (by decide), if_neg (by decide), if_neg (by decide), if_neg (by decide),
    if_neg (by decide), if_neg (by decide)]
  simp

theorem parseSeqLoop_err_after_atom (f : Nat) (s : PState) (hext : s.extendedMode = false)
    (hpk1 : cursorPeek s 0 ≠ '*') (hpk2 : cursorPeek s 0 ≠ '+')
    (hpk3 : cursorPeek s 0 ≠ '?') (hpk4 : cursorPeek s 0 ≠ '\x7b')
    (hpk5 : cursorPeek s 0 ≠ '\x00') (hpk6 : cursorPeek s 0 ≠ '|')
    (hpk7 : cursorPeek s 0 ≠ ')')
    (hg : (parseAtom f s).2.error.isSome = true) :
    parseSeqLoop (f + 1) [] s = (none, (parseAtom f s).2) := by
  simp only [parseSeqLoop, cursorSkipWs_not_ext s hext]
  split_ifs with h1 h2
  · rcases h1 with ⟨h | h | h | h, -⟩
    exacts [absurd h hpk1, absurd h hpk2, absurd h hpk3, absurd h hpk4]
  · rcases h2 with h | h | h
    exacts [absurd h hpk5, absurd h hpk6, absurd h hpk7]
  · rfl

theorem parseSeq_route (f : Nat) (s : PState) (herr : s.error = none) :
    parseSeq (f + 1) s = parseSeqLoop f [] s := by
  simp only [parseSeq, herr, Option.isSome_none, Bool.false_eq_true, if_false]

theorem parseAlt_seq_err (f : Nat) (s : PState) (hext : s.extendedMode = false)
    (herr : s.error = none) (hpkb : cursorPeek s 0 ≠ '|')
    (hg : (parseSeq f s).2.error.isSome = true) :
    parseAlt (f + 1) s = (none, (parseSeq f s).2) := by
  simp only [parseAlt, herr, Option.isSome_none, Bool.false_eq_true, if_false,
    cursorSkipWs_not_ext s hext]
  rw [if_neg hpkb]
  rcases hps : parseSeq f s with ⟨n?, s'⟩
  rw [hps] at hg
  simp [hps, hg]

theorem parseAlt_group_err (f : Nat) (s : PState) (hext : s.extendedMode = false)
    (herr : s.error = none) (hpk : cursorPeek s 0 = '(')
    (hg : (parseGroupOrLook (f + 1) s).2.error.isSome = true) :
    parseAlt (f + 5) s = (none, (parseGroupOrLook (f + 1) s).2) := by
  have hAtom : parseAtom (f + 2) s = parseGroupOrLook (f + 1) s :=
    parseAtom_route_group (f + 1) s hext herr hpk
  have hLoop : parseSeqLoop (f + 3) [] s = (none, (parseGroupOrLook (f + 1) s).2) := by
    have := parseSeqLoop_err_after_atom (f + 2) s hext
      (by rw [hpk]; decide) (by rw [hpk]; decide) (by rw [hpk]; decide) (by rw [hpk]; decide)
      (by rw [hpk]; decide) (by rw [hpk]; decide) (by rw [hpk]; decide)
      (by rw [hAtom]; exact hg)
    rw [hAtom] at this
    exact this
  have hSeq : parseSeq (f + 4) s = (none, (parseGroupOrLook (f + 1) s).2) := by
    rw [parseSeq_route (f + 3) s herr]
    exact hLoop
  have := parseAlt_seq_err (f + 4) s hext herr (by rw [hpk]; decide)
    (by rw [hSeq]; exact hg)
  rw [hSeq] at this
  exact this

theorem parseAlt_escape_err (f : Nat) (s : PState) (hext : s.extendedMode = false)
    (herr : s.error = none) (hpk : cursorPeek s 0 = '\\')
    (hg : (parseEscapeAtom s).2.error.isSome = true) :
    parseAlt (f + 5) s = (none, (parseEscapeAtom s).2) := by
  have hAtom : parseAtom (f + 2) s = parseEscapeAtom s :=
    parseAtom_route_escape (f + 1) s hext herr hpk
  have hLoop : parseSeqLoop (f + 3) [] s = (none, (parseEscapeAtom s).2) := by
    have := parseSeqLoop_err_after_atom (f + 2) s hext
      (by rw [hpk]; decide) (by rw [hpk]; decide) (by rw [hpk]; decide) (by rw [hpk]; decide)
      (by rw [hpk]; decide) (by rw [hpk]; decide) (by rw [hpk]; decide)
      (by rw [hAtom]; exact hg)
    rw [hAtom] at this
    exact this
  have hSeq : parseSeq (f + 4) s = (none, (parseEscapeAtom s).2) := by
    rw [parseSeq_route (f + 3) s herr]
    exact hLoop
  have := parseAlt_seq_err (f + 4) s hext herr (by rw [hpk]; decide)
    (by rw [hSeq]; exact hg)
  rw [hSeq] at this
  exact this

end STRling

namespace STRling

set_option maxHeartbeats 1000000 in
theorem parseGroupOrLook_name_overflow (f : Nat) (name tail : List Char) (p ic cc : Nat)
    (ns : List (List Char)) (h256 : 256 ≤ name.length)
    (hmem : ∀ c ∈ name, ¬ c = '>' ∧ ¬ c = '\x00')
    (hh1 : name.head? ≠ some '=') (hh2 : name.head? ≠ some '!') :
    (parseGroupOrLook (f + 1)
        ⟨'(' :: '?' :: '<' :: (name ++ tail), p, false, ic, cc, ns, none⟩).2.error =
      some ⟨msgUntermGroupName, p + 258⟩ := by
  obtain ⟨c0, name', rfl⟩ : ∃ c0 name', name = c0 :: name' :=
    List.exists_cons_of_ne_nil (by intro h; rw [h] at h256; simp at h256)
  have hc0e : ('=' == c0) = false := by
    rw [List.head?_cons] at hh1
    exact beq_eq_false_iff_ne.mpr (fun h => hh1 (by rw [h]))
  have hc0b : ('!' == c0) = false := by
    rw [List.head?_cons] at hh2
    exact beq_eq_false_iff_ne.mpr (fun h => hh2 (by rw [h]))
  have hlen' : 255 ≤ name'.length := by
    have h := h256
    simp only [List.length_cons] at h
    omega
  have htake : cursorTake ⟨'(' :: '?' :: '<' :: ((c0 :: name') ++ tail), p, false, ic, cc, ns, none⟩ =
      ('(', ⟨'?' :: '<' :: ((c0 :: name') ++ tail), p + 1, false, ic, cc, ns, none⟩) := rfl
  have e1 : cursorMatch ⟨'?' :: '<' :: ((c0 :: name') ++ tail), p + 1, false, ic, cc, ns, none⟩
      ['?', ':'] =
      (false, ⟨'?' :: '<' :: ((c0 :: name') ++ tail), p + 1, false, ic, cc, ns, none⟩) := rfl
  have e2 : cursorMatch ⟨'?' :: '<' :: ((c0 :: name') ++ tail), p + 1, false, ic, cc, ns, none⟩
      ['?', '<', '='] =
      (false, ⟨'?' :: '<' :: ((c0 :: name') ++ tail), p + 1, false, ic, cc, ns, none⟩) := by
    simp [cursorMatch, listIsPrefix, hc0e]
  have e3 : cursorMatch ⟨'?' :: '<' :: ((c0 :: name') ++ tail), p + 1, false, ic, cc, ns, none⟩
      ['?', '<', '!'] =
      (false, ⟨'?' :: '<' :: ((c0 :: name') ++ tail), p + 1, false, ic, cc, ns, none⟩) := by
    simp [cursorMatch, listIsPrefix, hc0b]
  have e4 : cursorMatch ⟨'?' :: '<' :: ((c0 :: name') ++ tail), p + 1, false, ic, cc, ns, none⟩
      ['?', '<'] =
      (true, ⟨(c0 :: name') ++ tail, p + 1 + 2, false, ic, cc, ns, none⟩) := rfl
  have hRD : readDelim '>' (((c0 :: name') ++ tail).length) []
        ⟨(c0 :: name') ++ tail, p + 1 + 2, false, ic, cc, ns, none⟩ =
      ((c0 :: name').take 255,
        ⟨(c0 :: name').drop 255 ++ tail, p + 258, false, ic, cc, ns, none⟩) := by
    rw [readDelim_run '>' 255 [] _ _ (by simp)
      (by simp only [List.length_append, List.length_cons]; omega)
      (by simp only [List.length_append, List.length_cons]; omega)
      (by intro x hx
          rw [List.take_append_of_le_length (by simp only [List.length_cons]; omega)] at hx
          exact hmem x (List.take_subset _ _ hx))]
    rw [List.take_append_of_le_length (by simp only [List.length_cons]; omega),
      List.drop_append_of_le_length (by simp only [List.length_cons]; omega)]
    simp only [List.nil_append, Prod.mk.injEq, PState.mk.injEq]
  obtain ⟨d, ds, hdds⟩ : ∃ d ds, (c0 :: name').drop 255 = d :: ds :=
    List.exists_cons_of_ne_nil
      (by simp only [ne_eq, List.drop_eq_nil_iff, List.length_cons, not_le]; omega)
  have hd : d ∈ (c0 :: name') :=
    List.drop_subset 255 _ (by rw [hdds]; exact List.mem_cons_self _ _)
  have eGT : cursorMatch ⟨(c0 :: name').drop 255 ++ tail, p + 258, false, ic, cc, ns, none⟩
      ['>'] =
      (false, ⟨(c0 :: name').drop 255 ++ tail, p + 258, false, ic, cc, ns, none⟩) := by
    apply cursorMatch_one_neg
    show ((c0 :: name').drop 255 ++ tail).head? ≠ some '>'
    rw [hdds]
    simp only [List.cons_append, List.head?_cons, ne_eq, Option.some.injEq]
    exact (hmem d hd).1
  rw [parseGroupOrLook, htake]
  split
  rename_i x1 cX sX heqX
  injection heqX with hc hs
  subst hc; subst hs
  rw [if_neg (by decide : ¬ ('(' : Char) ≠ '(')]
  split
  rename_i x2 m1 s1 heq1
  rw [e1] at heq1
  injection heq1 with hm hs
  subst hm; subst hs
  rw [if_neg (by decide : ¬ false = true)]
  split
  rename_i x3 m2 s2 heq2
  rw [e2] at heq2
  injection heq2 with hm hs
  subst hm; subst hs
  rw [if_neg (by decide : ¬ false = true)]
  split
  rename_i x4 m3 s3 heq3
  rw [e3] at heq3
  injection heq3 with hm hs
  subst hm; subst hs
  rw [if_neg (by decide : ¬ false = true)]
  split
  rename_i x5 m4 s4 heq4
  rw [e4] at heq4
  injection heq4 with hm hs
  subst hm; subst hs
  rw [if_pos rfl]
  split
  rename_i x6 nm s5 heq5
  rw [hRD] at heq5
  injection heq5 with hm hs
  subst hm; subst hs
  split
  rename_i x7 ok s6 heq6
  rw [eGT] at heq6
  injection heq6 with hm hs
  subst hm; subst hs
  rw [if_pos (by decide : ¬ false = true)]
  rfl

end STRling

namespace STRling

theorem parseEscapeAtom_k_overflow (name tail : List Char) (p ic cc : Nat)
    (ns : List (List Char)) (h256 : 256 ≤ name.length)
    (hmem : ∀ c ∈ name, ¬ c = '>' ∧ ¬ c = '\x00') :
    (parseEscapeAtom
        ⟨'\\' :: 'k' :: '<' :: (name ++ tail), p, false, ic, cc, ns, none⟩).2.error =
      some ⟨msgUntermNamedBackref, p⟩ := by
  have hpre : parseEscapeAtom
      ⟨'\\' :: 'k' :: '<' :: (name ++ tail), p, false, ic, cc, ns, none⟩ =
      kEscapeTail p ⟨name ++ tail, p + 1 + 1 + 1, false, ic, cc, ns, none⟩ := rfl
  have hlen' : 255 ≤ name.length := by omega
  have hRD : readDelim '>' ((name ++ tail).length) []
        ⟨name ++ tail, p + 1 + 1 + 1, false, ic, cc, ns, none⟩ =
      (name.take 255, ⟨name.drop 255 ++ tail, p + 258, false, ic, cc, ns, none⟩) := by
    rw [readDelim_run '>' 255 [] _ _ (by simp)
      (by simp only [List.length_append]; omega)
      (by simp only [List.length_append]; omega)
      (by intro x hx
          rw [List.take_append_of_le_length (by omega)] at hx
          exact hmem x (List.take_subset _ _ hx))]
    rw [List.take_append_of_le_length (by omega), List.drop_append_of_le_length (by omega)]
    simp only [List.nil_append, Prod.mk.injEq, PState.mk.injEq]
  obtain ⟨d, ds, hdds⟩ : ∃ d ds, name.drop 255 = d :: ds :=
    List.exists_cons_of_ne_nil (by simp only [ne_eq, List.drop_eq_nil_iff, not_le]; omega)
  have hd : d ∈ name :=
    List.drop_subset 255 _ (by rw [hdds]; exact List.mem_cons_self _ _)
  have eGT : cursorMatch ⟨name.drop 255 ++ tail, p + 258, false, ic, cc, ns, none⟩ ['>'] =
      (false, ⟨name.drop 255 ++ tail, p + 258, false, ic, cc, ns, none⟩) := by
    apply cursorMatch_one_neg
    show (name.drop 255 ++ tail).head? ≠ some '>'
    rw [hdds]
    simp only [List.cons_append, List.head?_cons, ne_eq, Option.some.injEq]
    exact (hmem d hd).1
  rw [hpre, kEscapeTail]
  split
  rename_i x1 nm s1 heq1
  rw [hRD] at heq1
  injection heq1 with hm hs
  subst hm; subst hs
  split
  rename_i x2 ok s2 heq2
  rw [eGT] at heq2
  injection heq2 with hm hs
  subst hm; subst hs
  rw [if_pos (by decide : ¬ false = true)]
  rfl

theorem parseEscapeAtom_p_overflow (prop tail : List Char) (p ic cc : Nat)
    (ns : List (List Char)) (h256 : 256 ≤ prop.length)
    (hmem : ∀ c ∈ prop, ¬ c = '\x7d' ∧ ¬ c = '\x00') :
    (parseEscapeAtom
        ⟨'\\' :: 'p' :: '\x7b' :: (prop ++ tail), p, false, ic, cc, ns, none⟩).2.error =
      some ⟨msgUntermP, p⟩ := by
  have hpre : parseEscapeAtom
      ⟨'\\' :: 'p' :: '\x7b' :: (prop ++ tail), p, false, ic, cc, ns, none⟩ =
      pEscapeTail 'p' p ⟨prop ++ tail, p + 1 + 1 + 1, false, ic, cc, ns, none⟩ := rfl
  have hlen' : 255 ≤ prop.length := by omega
  have hRD : readDelim '\x7d' ((prop ++ tail).length) []
        ⟨prop ++ tail, p + 1 + 1 + 1, false, ic, cc, ns, none⟩ =
      (prop.take 255, ⟨prop.drop 255 ++ tail, p + 258, false, ic, cc, ns, none⟩) := by
    rw [readDelim_run '\x7d' 255 [] _ _ (by simp)
      (by simp only [List.length_append]; omega)
      (by simp only [List.length_append]; omega)
      (by intro x hx
          rw [List.take_append_of_le_length (by omega)] at hx
          exact hmem x (List.take_subset _ _ hx))]
    rw [List.take_append_of_le_length (by omega), List.drop_append_of_le_length (by omega)]
    simp only [List.nil_append, Prod.mk.injEq, PState.mk.injEq]
  obtain ⟨d, ds, hdds⟩ : ∃ d ds, prop.drop 255 = d :: ds :=
    List.exists_cons_of_ne_nil (by simp only [ne_eq, List.drop_eq_nil_iff, not_le]; omega)
  have hd : d ∈ prop :=
    List.drop_subset 255 _ (by rw [hdds]; exact List.mem_cons_self _ _)
  have eGT : cursorMatch ⟨prop.drop 255 ++ tail, p + 258, false, ic, cc, ns, none⟩ ['\x7d'] =
      (false, ⟨prop.drop 255 ++ tail, p + 258, false, ic, cc, ns, none⟩) := by
    apply cursorMatch_one_neg
    show (prop.drop 255 ++ tail).head? ≠ some '\x7d'
    rw [hdds]
    simp only [List.cons_append, List.head?_cons, ne_eq, Option.some.injEq]
    exact (hmem d hd).1
  rw [hpre, pEscapeTail]
  split
  rename_i x1 nm s1 heq1
  rw [hRD] at heq1
  injection heq1 with hm hs
  subst hm; subst hs
  split
  rename_i x2 ok s2 heq2
  rw [eGT] at heq2
  injection heq2 with hm hs
  subst hm; subst hs
  rw [if_pos (by decide : ¬ false = true)]
  rfl

end STRling

namespace STRling

theorem strling_group_name_overflow (name : List Char) (h256 : 256 ≤ name.length)
    (hmem : ∀ c ∈ name, ¬ c = '>' ∧ ¬ c = '\x00' ∧ ¬ c = '%')
    (hh1 : name.head? ≠ some '=') (hh2 : name.head? ≠ some '!') :
    (strling_parse ('(' :: '?' :: '<' :: (name ++ ['>', 'x', ')']))).error.isSome = true := by
  have hN : '\x00' ∉ ('(' :: '?' :: '<' :: (name ++ ['>', 'x', ')'])) := by
    intro h
    rcases List.mem_cons.mp h with h | h
    · exact absurd h (by decide)
    rcases List.mem_cons.mp h with h | h
    · exact absurd h (by decide)
    rcases List.mem_cons.mp h with h | h
    · exact absurd h (by decide)
    rcases List.mem_append.mp h with h | h
    · exact (hmem _ h).2.1 rfl
    · exact absurd h (by decide)
  have hP : '%' ∉ ('(' :: '?' :: '<' :: (name ++ ['>', 'x', ')'])) := by
    intro h
    rcases List.mem_cons.mp h with h | h
    · exact absurd h (by decide)
    rcases List.mem_cons.mp h with h | h
    · exact absurd h (by decide)
    rcases List.mem_cons.mp h with h | h
    · exact absurd h (by decide)
    rcases List.mem_append.mp h with h | h
    · exact (hmem _ h).2.2 rfl
    · exact absurd h (by decide)
  have hmem' : ∀ c ∈ name, ¬ c = '>' ∧ ¬ c = '\x00' :=
    fun c hc => ⟨(hmem c hc).1, (hmem c hc).2.1⟩
  obtain ⟨f, hf⟩ : ∃ f, 16 * (('(' :: '?' :: '<' :: (name ++ ['>', 'x', ')'])).length + 2) =
      f + 5 :=
    ⟨16 * (('(' :: '?' :: '<' :: (name ++ ['>', 'x', ')'])).length + 2) - 5, by
      simp only [List.length_cons]; omega⟩
  have hGrp := parseGroupOrLook_name_overflow f name ['>', 'x', ')'] 0 0 0 [] h256 hmem' hh1 hh2
  have hIs : (parseGroupOrLook (f + 1)
      ⟨'(' :: '?' :: '<' :: (name ++ ['>', 'x', ')']), 0, false, 0, 0, [], none⟩).2.error.isSome =
      true := by rw [hGrp]; rfl
  have hAlt := parseAlt_group_err f
    ⟨'(' :: '?' :: '<' :: (name ++ ['>', 'x', ')']), 0, false, 0, 0, [], none⟩
    rfl rfl rfl hIs
  simp only [strling_parse, cString_of_no_nul hN, parseDirectives_of_no_percent hP,
    defaultFlags, initState, hf, parserParse]
  rw [hAlt]
  simp only [hIs, if_true]

end STRling

namespace STRling

theorem strling_named_backref_overflow (name : List Char) (h256 : 256 ≤ name.length)
    (hmem : ∀ c ∈ name, ¬ c = '>' ∧ ¬ c = '\x00' ∧ ¬ c = '%') :
    (strling_parse ('\\' :: 'k' :: '<' :: (name ++ ['>']))).error.isSome = true := by
  have hN : '\x00' ∉ ('\\' :: 'k' :: '<' :: (name ++ ['>'])) := by
    intro h
    rcases List.mem_cons.mp h with h | h
    · exact absurd h (by decide)
    rcases List.mem_cons.mp h with h | h
    · exact absurd h (by decide)
    rcases List.mem_cons.mp h with h | h
    · exact absurd h (by decide)
    rcases List.mem_append.mp h with h | h
    · exact (hmem _ h).2.1 rfl
    · exact absurd h (by decide)
  have hP : '%' ∉ ('\\' :: 'k' :: '<' :: (name ++ ['>'])) := by
    intro h
    rcases List.mem_cons.mp h with h | h
    · exact absurd h (by decide)
    rcases List.mem_cons.mp h with h | h
    · exact absurd h (by decide)
    rcases List.mem_cons.mp h with h | h
    · exact absurd h (by decide)
    rcases List.mem_append.mp h with h | h
    · exact (hmem _ h).2.2 rfl
    · exact absurd h (by decide)
  have hmem' : ∀ c ∈ name, ¬ c = '>' ∧ ¬ c = '\x00' :=
    fun c hc => ⟨(hmem c hc).1, (hmem c hc).2.1⟩
  obtain ⟨f, hf⟩ : ∃ f, 16 * (('\\' :: 'k' :: '<' :: (name ++ ['>'])).length + 2) = f + 5 :=
    ⟨16 * (('\\' :: 'k' :: '<' :: (name ++ ['>'])).length + 2) - 5, by
      simp only [List.length_cons]; omega⟩
  have hEsc := parseEscapeAtom_k_overflow name ['>'] 0 0 0 [] h256 hmem'
  have hIs : (parseEscapeAtom
      ⟨'\\' :: 'k' :: '<' :: (name ++ ['>']), 0, false, 0, 0, [], none⟩).2.error.isSome =
      true := by rw [hEsc]; rfl
  have hAlt := parseAlt_escape_err f
    ⟨'\\' :: 'k' :: '<' :: (name ++ ['>']), 0, false, 0, 0, [], none⟩
    rfl rfl rfl hIs
  simp only [strling_parse, cString_of_no_nul hN, parseDirectives_of_no_percent hP,
    defaultFlags, initState, hf, parserParse]
  rw [hAlt]
  simp only [hIs, if_true]

theorem strling_uniprop_overflow (prop : List Char) (h256 : 256 ≤ prop.length)
    (hmem : ∀ c ∈ prop, ¬ c = '\x7d' ∧ ¬ c = '\x00' ∧ ¬ c = '%') :
    (strling_parse ('\\' :: 'p' :: '\x7b' :: (prop ++ ['\x7d']))).error.isSome = true := by
  have hN : '\x00' ∉ ('\\' :: 'p' :: '\x7b' :: (prop ++ ['\x7d'])) := by
    intro h
    rcases List.mem_cons.mp h with h | h
    · exact absurd h (by decide)
    rcases List.mem_cons.mp h with h | h
    · exact absurd h (by decide)
    rcases List.mem_cons.mp h with h | h
    · exact absurd h (by decide)
    rcases List.mem_append.mp h with h | h
    · exact (hmem _ h).2.1 rfl
    · exact absurd h (by decide)
  have hP : '%' ∉ ('\\' :: 'p' :: '\x7b' :: (prop ++ ['\x7d'])) := by
    intro h
    rcases List.mem_cons.mp h with h | h
    · exact absurd h (by decide)
    rcases List.mem_cons.mp h with h | h
    · exact absurd h (by decide)
    rcases List.mem_cons.mp h with h | h
    · exact absurd h (by decide)
    rcases List.mem_append.mp h with h | h
    · exact (hmem _ h).2.2 rfl
    · exact absurd h (by decide)
  have hmem' : ∀ c ∈ prop, ¬ c = '\x7d' ∧ ¬ c = '\x00' :=
    fun c hc => ⟨(hmem c hc).1, (hmem c hc).2.1⟩
  obtain ⟨f, hf⟩ : ∃ f, 16 * (('\\' :: 'p' :: '\x7b' :: (prop ++ ['\x7d'])).length + 2) =
      f + 5 :=
    ⟨16 * (('\\' :: 'p' :: '\x7b' :: (prop ++ ['\x7d'])).length + 2) - 5, by
      simp only [List.length_cons]; omega⟩
  have hEsc := parseEscapeAtom_p_overflow prop ['\x7d'] 0 0 0 [] h256 hmem'
  have hIs : (parseEscapeAtom
      ⟨'\\' :: 'p' :: '\x7b' :: (prop ++ ['\x7d']), 0, false, 0, 0, [], none⟩).2.error.isSome =
      true := by rw [hEsc]; rfl
  have hAlt := parseAlt_escape_err f
    ⟨'\\' :: 'p' :: '\x7b' :: (prop ++ ['\x7d']), 0, false, 0, 0, [], none⟩
    rfl rfl rfl hIs
  simp only [strling_parse, cString_of_no_nul hN, parseDirectives_of_no_percent hP,
    defaultFlags, initState, hf, parserParse]
  rw [hAlt]
  simp only [hIs, if_true]

end STRling

namespace STRling

theorem cursorMatch_head_neg (s : PState) (d : Char) (w : List Char)
    (h : s.rest.head? ≠ some d) : cursorMatch s (d :: w) = (false, s) := by
  cases hr : s.rest with
  | nil => simp [cursorMatch, listIsPrefix, hr]
  | cons c r =>
    rw [hr] at h
    simp only [List.head?_cons, ne_eq, Option.some.injEq] at h
    simp [cursorMatch, listIsPrefix, hr, Ne.symm h]

theorem parseAtom_literal (f : Nat) (s : PState)
    (hext : s.extendedMode = false) (herr : s.error = none)
    (h1 : cursorPeek s 0 ≠ '\x00') (h2 : cursorPeek s 0 ≠ '.')
    (h3 : cursorPeek s 0 ≠ '^') (h4 : cursorPeek s 0 ≠ '$')
    (h5 : cursorPeek s 0 ≠ '(') (h6 : cursorPeek s 0 ≠ '[')
    (h7 : cursorPeek s 0 ≠ '\\') (h8 : cursorPeek s 0 ≠ ')')
    (h9 : cursorPeek s 0 ≠ '|') :
    parseAtom (f + 1) s =
      (some (Node.lit (cString [(cursorTake s).1])), (cursorTake s).2) := by
  simp only [parseAtom, herr, Option.isSome_none, Bool.false_eq_true, if_false,
    cursorSkipWs_not_ext s hext]
  rw [if_neg h1, if_neg h2, if_neg h3, if_neg h4, if_neg h5, if_neg h6, if_neg h7,
    if_neg h8, if_neg h9]

theorem parseSeqLoop_single (f : Nat) (s s' : PState) (a : Node)
    (hext : s.extendedMode = false)
    (hpk1 : cursorPeek s 0 ≠ '*') (hpk2 : cursorPeek s 0 ≠ '+')
    (hpk3 : cursorPeek s 0 ≠ '?') (hpk4 : cursorPeek s 0 ≠ '\x7b')
    (hpk5 : cursorPeek s 0 ≠ '\x00') (hpk6 : cursorPeek s 0 ≠ '|')
    (hpk7 : cursorPeek s 0 ≠ ')')
    (hAtom : parseAtom (f + 1) s = (some a, s'))
    (herr' : s'.error = none) (hext' : s'.extendedMode = false)
    (hpk' : cursorPeek s' 0 = '\x00' ∨ cursorPeek s' 0 = ')') :
    parseSeqLoop (f + 2) [] s = (some a, s') := by
  have hq : parseQuantIfAny s' (some a) = (some a, s') :=
    parseQuantIfAny_no_quant_char s' (some a)
      (by rcases hpk' with h | h <;> rw [h] <;> decide)
      (by rcases hpk' with h | h <;> rw [h] <;> decide)
      (by rcases hpk' with h | h <;> rw [h] <;> decide)
      (by rcases hpk' with h | h <;> rw [h] <;> decide)
  have herrb : s'.error.isSome = false := by rw [herr']; rfl
  rw [parseSeqLoop, cursorSkipWs_not_ext s hext]
  rw [if_neg (by
    rintro ⟨h | h | h | h, -⟩
    exacts [hpk1 h, hpk2 h, hpk3 h, hpk4 h])]
  rw [if_neg (by
    rintro (h | h | h)
    exacts [hpk5 h, hpk6 h, hpk7 h])]
  split
  rename_i x1 atom2 s2 heq
  rw [hAtom] at heq
  injection heq with hm hs
  subst hm; subst hs
  rw [if_neg (by rw [herrb]; decide)]
  split
  · rename_i heq
    simp at heq
  · rename_i a2 heq
    injection heq with ha
    subst ha
    split
    rename_i x2 q2 s3 heq2
    rw [hq] at heq2
    injection heq2 with hm hs
    subst hm; subst hs
    rw [if_neg (by rw [herrb]; decide)]
    split
    · rename_i a3 heq3
      first
      | subst heq3
      | (injection heq3 with ha; subst ha)
      rw [parseSeqLoop, cursorSkipWs_not_ext s' hext']
      rw [if_neg (by rintro ⟨-, h⟩; simp at h)]
      rw [if_pos (by
        rcases hpk' with h | h
        · exact Or.inl h
        · exact Or.inr (Or.inr h))]
      rfl
    · rename_i heq3
      simp at heq3

theorem parseAlt_single_atom (f : Nat) (s s' : PState) (a : Node)
    (hext : s.extendedMode = false) (herr : s.error = none)
    (hpk1 : cursorPeek s 0 ≠ '*') (hpk2 : cursorPeek s 0 ≠ '+')
    (hpk3 : cursorPeek s 0 ≠ '?') (hpk4 : cursorPeek s 0 ≠ '\x7b')
    (hpk5 : cursorPeek s 0 ≠ '\x00') (hpk6 : cursorPeek s 0 ≠ '|')
    (hpk7 : cursorPeek s 0 ≠ ')')
    (hAtom : parseAtom (f + 2) s = (some a, s'))
    (herr' : s'.error = none) (hext' : s'.extendedMode = false)
    (hpk' : cursorPeek s' 0 = '\x00' ∨ cursorPeek s' 0 = ')') :
    parseAlt (f + 5) s = (some a, s') := by
  have hLoop : parseSeqLoop (f + 3) [] s = (some a, s') :=
    parseSeqLoop_single (f + 1) s s' a hext hpk1 hpk2 hpk3 hpk4 hpk5 hpk6 hpk7
      hAtom herr' hext' hpk'
  have hSeq : parseSeq (f + 4) s = (some a, s') := by
    rw [parseSeq_route (f + 3) s herr]
    exact hLoop
  have herrb : s'.error.isSome = false := by rw [herr']; rfl
  have hne : cursorPeek s' 0 ≠ '|' := by
    rcases hpk' with h | h <;> rw [h] <;> decide
  rw [parseAlt]
  rw [if_neg (by rw [herr]; decide), cursorSkipWs_not_ext s hext, if_neg hpk6]
  split
  rename_i x1 first2 s2 heq
  rw [hSeq] at heq
  injection heq with hm hs
  subst hm; subst hs
  rw [if_neg (by rw [herrb]; decide)]
  split
  · rename_i heq
    simp at heq
  · rename_i first heq
    injection heq with hf
    subst hf
    simp only [cursorSkipWs_not_ext s' hext', hne, if_false]

theorem parseGroupOrLook_capturing (f : Nat) (rest' : List Char) (p ic cc : Nat)
    (ns : List (List Char)) (body : Node) (s' : PState)
    (hhead : rest'.head? ≠ some '?')
    (hAlt : parseAlt f ⟨rest', p + 1, false, ic, cc + 1, ns, none⟩ = (some body, s'))
    (herr' : s'.error = none)
    (hrt : s'.rest.head? = some ')') :
    parseGroupOrLook (f + 1) ⟨'(' :: rest', p, false, ic, cc, ns, none⟩ =
      (some (Node.group true (some body) none false),
        { s' with rest := s'.rest.tail, pos := s'.pos + 1 }) := by
  obtain ⟨t, ht⟩ : ∃ t, s'.rest = ')' :: t := by
    cases hr : s'.rest with
    | nil => rw [hr] at hrt; simp at hrt
    | cons c r =>
      rw [hr] at hrt
      simp only [List.head?_cons, Option.some.injEq] at hrt
      exact ⟨r, by rw [hrt]⟩
  have herrb : s'.error.isSome = false := by rw [herr']; rfl
  have htake : cursorTake ⟨'(' :: rest', p, false, ic, cc, ns, none⟩ =
      ('(', ⟨rest', p + 1, false, ic, cc, ns, none⟩) := rfl
  have hm1 := cursorMatch_head_neg ⟨rest', p + 1, false, ic, cc, ns, none⟩ '?' [':'] hhead
  have hm2 := cursorMatch_head_neg ⟨rest', p + 1, false, ic, cc, ns, none⟩ '?' ['<', '='] hhead
  have hm3 := cursorMatch_head_neg ⟨rest', p + 1, false, ic, cc, ns, none⟩ '?' ['<', '!'] hhead
  have hm4 := cursorMatch_head_neg ⟨rest', p + 1, false, ic, cc, ns, none⟩ '?' ['<'] hhead
  have hm5 := cursorMatch_head_neg ⟨rest', p + 1, false, ic, cc, ns, none⟩ '?' ['>'] hhead
  have hm6 := cursorMatch_head_neg ⟨rest', p + 1, false, ic, cc, ns, none⟩ '?' ['='] hhead
  have hm7 := cursorMatch_head_neg ⟨rest', p + 1, false, ic, cc, ns, none⟩ '?' ['!'] hhead
  have hcp : cursorMatch s' [')'] =
      (true, { s' with rest := s'.rest.tail, pos := s'.pos + 1 }) := by
    simp [cursorMatch, listIsPrefix, ht]
  rw [parseGroupOrLook]
  split
  rename_i x0 cX sX heqX
  rw [htake] at heqX
  injection heqX with hc hs
  subst hc; subst hs
  rw [if_neg (by decide : ¬ ('(' : Char) ≠ '(')]
  split
  rename_i x1 m1 s1 heq
  rw [hm1] at heq
  injection heq with hm hs
  subst hm; subst hs
  rw [if_neg (by decide : ¬ false = true)]
  split
  rename_i x2 m2 s2 heq2
  rw [hm2] at heq2
  injection heq2 with hm hs
  subst hm; subst hs
  rw [if_neg (by decide : ¬ false = true)]
  split
  rename_i x3 m3 s3 heq3
  rw [hm3] at heq3
  injection heq3 with hm hs
  subst hm; subst hs
  rw [if_neg (by decide : ¬ false = true)]
  split
  rename_i x4 m4 s4 heq4
  rw [hm4] at heq4
  injection heq4 with hm hs
  subst hm; subst hs
  rw [if_neg (by decide : ¬ false = true)]
  split
  rename_i x5 m5 s5 heq5
  rw [hm5] at heq5
  injection heq5 with hm hs
  subst hm; subst hs
  rw [if_neg (by decide : ¬ false = true)]
  split
  rename_i x6 m6 s6 heq6
  rw [hm6] at heq6
  injection heq6 with hm hs
  subst hm; subst hs
  rw [if_neg (by decide : ¬ false = true)]
  split
  rename_i x7 m7 s7 heq7
  rw [hm7] at heq7
  injection heq7 with hm hs
  subst hm; subst hs
  rw [if_neg (by decide : ¬ false = true)]
  show groupFinish (parseAlt f ⟨rest', p + 1, false, ic, cc + 1, ns, none⟩).2
      (parseAlt f ⟨rest', p + 1, false, ic, cc + 1, ns, none⟩).1
      (fun b => Node.group true b none false) msgUntermGroup =
    (some (Node.group true (some body) none false),
      { s' with rest := s'.rest.tail, pos := s'.pos + 1 })
  rw [hAlt]
  show groupFinish s' (some body) (fun b => Node.group true b none false) msgUntermGroup =
    (some (Node.group true (some body) none false),
      { s' with rest := s'.rest.tail, pos := s'.pos + 1 })
  rw [groupFinish]
  rw [if_neg (by rw [herrb]; decide)]
  split
  rename_i x9 ok s9 heq9
  rw [hcp] at heq9
  injection heq9 with hm hs
  subst hm; subst hs
  rw [if_neg (by decide : ¬ (¬ true = true))]

end STRling

namespace STRling

theorem nestW_cons_append (m : Nat) (u : List Char) :
    nestW (m + 1) ++ u = '(' :: (nestW m ++ (')' :: u)) := by
  simp [nestW, List.append_assoc]

theorem nestW_append_head_ne (m : Nat) (u : List Char) (c : Char)
    (h1 : c ≠ 'a') (h2 : c ≠ '(') : (nestW m ++ u).head? ≠ some c := by
  cases m with
  | zero =>
    intro h
    simp only [nestW, List.cons_append, List.nil_append, List.head?_cons,
      Option.some.injEq] at h
    exact h1 h.symm
  | succ m' =>
    intro h
    simp only [nestW, List.cons_append, List.head?_cons, Option.some.injEq] at h
    exact h2 h.symm

theorem parseAlt_nest (m : Nat) :
    ∀ (f p ic cc : Nat) (ns : List (List Char)) (u : List Char),
    7 * m + 5 ≤ f → (u = [] ∨ u.head? = some ')') →
    parseAlt f ⟨nestW m ++ u, p, false, ic, cc, ns, none⟩ =
      (some (nestNode m), ⟨u, p + (2 * m + 1), false, ic, cc + m, ns, none⟩) := by
  induction m with
  | zero =>
    intro f p ic cc ns u hf hu
    obtain ⟨g, rfl⟩ : ∃ g, f = g + 5 := ⟨f - 5, by omega⟩
    have hpk1 : cursorPeek (⟨u, p + 1, false, ic, cc, ns, none⟩ : PState) 0 = '\x00' ∨
        cursorPeek (⟨u, p + 1, false, ic, cc, ns, none⟩ : PState) 0 = ')' := by
      rcases hu with rfl | hu
      · left; rfl
      · right
        cases u with
        | nil => simp at hu
        | cons c t =>
          simp only [List.head?_cons, Option.some.injEq] at hu
          subst hu; rfl
    have hAtom : parseAtom (g + 2) ⟨'a' :: u, p, false, ic, cc, ns, none⟩ =
        (some (Node.lit ['a']), ⟨u, p + 1, false, ic, cc, ns, none⟩) :=
      parseAtom_literal (g + 1) ⟨'a' :: u, p, false, ic, cc, ns, none⟩ rfl rfl
        (by simp) (by simp) (by simp) (by simp) (by simp) (by simp)
        (by simp) (by simp) (by simp)
    exact parseAlt_single_atom g ⟨'a' :: u, p, false, ic, cc, ns, none⟩
      ⟨u, p + 1, false, ic, cc, ns, none⟩ (Node.lit ['a']) rfl rfl
      (by simp) (by simp) (by simp) (by simp) (by simp) (by simp) (by simp)
      hAtom rfl rfl hpk1
  | succ m ih =>
    intro f p ic cc ns u hf hu
    obtain ⟨g, rfl⟩ : ∃ g, f = g + 5 := ⟨f - 5, by omega⟩
    have hIH := ih g (p + 1) ic (cc + 1) ns (')' :: u) (by omega) (Or.inr rfl)
    have hGrp : parseGroupOrLook (g + 1)
        ⟨'(' :: (nestW m ++ (')' :: u)), p, false, ic, cc, ns, none⟩ =
        (some (Node.group true (some (nestNode m)) none false),
          ⟨u, (p + 1) + (2 * m + 1) + 1, false, ic, (cc + 1) + m, ns, none⟩) :=
      parseGroupOrLook_capturing g (nestW m ++ (')' :: u)) p ic cc ns (nestNode m)
        ⟨')' :: u, (p + 1) + (2 * m + 1), false, ic, (cc + 1) + m, ns, none⟩
        (nestW_append_head_ne m (')' :: u) '?' (by decide) (by decide)) hIH rfl rfl
    have hAtom : parseAtom (g + 2)
        ⟨'(' :: (nestW m ++ (')' :: u)), p, false, ic, cc, ns, none⟩ =
        (some (Node.group true (some (nestNode m)) none false),
          ⟨u, (p + 1) + (2 * m + 1) + 1, false, ic, (cc + 1) + m, ns, none⟩) :=
      (parseAtom_route_group (g + 1)
        ⟨'(' :: (nestW m ++ (')' :: u)), p, false, ic, cc, ns, none⟩ rfl rfl rfl).trans hGrp
    have hpk1 : cursorPeek (⟨u, (p + 1) + (2 * m + 1) + 1, false, ic, (cc + 1) + m, ns,
        none⟩ : PState) 0 = '\x00' ∨
        cursorPeek (⟨u, (p + 1) + (2 * m + 1) + 1, false, ic, (cc + 1) + m, ns,
        none⟩ : PState) 0 = ')' := by
      rcases hu with rfl | hu
      · left; rfl
      · right
        cases u with
        | nil => simp at hu
        | cons c t =>
          simp only [List.head?_cons, Option.some.injEq] at hu
          subst hu; rfl
    have h := parseAlt_single_atom g
      ⟨'(' :: (nestW m ++ (')' :: u)), p, false, ic, cc, ns, none⟩
      ⟨u, (p + 1) + (2 * m + 1) + 1, false, ic, (cc + 1) + m, ns, none⟩
      (Node.group true (some (nestNode m)) none false) rfl rfl
      (by simp) (by simp) (by simp) (by simp) (by simp) (by simp) (by simp)
      hAtom rfl rfl hpk1
    rw [nestW_cons_append]
    rw [show p + (2 * (m + 1) + 1) = (p + 1) + (2 * m + 1) + 1 by ring]
    rw [show cc + (m + 1) = (cc + 1) + m by ring]
    exact h

end STRling

namespace STRling

theorem nestW_length (m : Nat) : (nestW m).length = 2 * m + 1 := by
  induction m with
  | zero => rfl
  | succ m ih =>
    simp only [nestW, List.length_cons, List.length_append, ih, List.length_nil]
    omega

theorem nestW_mem (m : Nat) : ∀ c ∈ nestW m, c = '(' ∨ c = 'a' ∨ c = ')' := by
  induction m with
  | zero =>
    intro c hc
    simp only [nestW, List.mem_singleton] at hc
    right; left; exact hc
  | succ m ih =>
    intro c hc
    simp only [nestW, List.mem_cons, List.mem_append] at hc
    rcases hc with rfl | hc | rfl | h0
    · left; rfl
    · exact ih c hc
    · right; right; rfl
    · exact absurd h0 (List.not_mem_nil c)

theorem strling_parse_nest (m : Nat) :
    strling_parse (nestW m) = ⟨defaultFlags, some (nestNode m), none⟩ := by
  have hN : '\x00' ∉ nestW m := by
    intro h
    rcases nestW_mem m _ h with h1 | h1 | h1 <;> exact absurd h1 (by decide)
  have hP : '%' ∉ nestW m := by
    intro h
    rcases nestW_mem m _ h with h1 | h1 | h1 <;> exact absurd h1 (by decide)
  have hAlt := parseAlt_nest m (16 * ((nestW m).length + 2)) 0 0 0 [] []
    (by rw [nestW_length]; omega) (Or.inl rfl)
  rw [List.append_nil] at hAlt
  simp only [strling_parse, cString_of_no_nul hN, parseDirectives_of_no_percent hP,
    defaultFlags, initState, parserParse]
  rw [hAlt]
  simp

end STRling

namespace STRling

/-- C1: the spec says `\x{...}` (and `\uHHHH`, `\u{...}`) escapes with
codepoint ≥ 128 produce a Literal holding the UTF-8 encoding of the
codepoint.  The code instead substitutes the single character `?`:
parsing `\x{E9}` succeeds with `Literal "?"`, not the two-byte UTF-8
sequence C3 A9 for U+00E9. -/
theorem C1_hex_escape_substitute :
    (strling_parse ['\\', 'x', '\x7b', 'E', '9', '\x7d']).error = none ∧
    (strling_parse ['\\', 'x', '\x7b', 'E', '9', '\x7d']).root = some (Node.lit ['?']) :=
  ⟨by simp, by simp⟩

/-- C2: the spec says inputs with group nesting depth over 1000 are rejected
with a "Nesting too deep" diagnostic via an explicit depth counter.  The
code has no depth counter: 1001 nested capturing groups around `a` parse
successfully with no diagnostic, the parser relying on the native call
stack. -/
theorem C2_deep_nesting_succeeds :
    (strling_parse (nestW 1001)).error = none ∧
    (strling_parse (nestW 1001)).root = some (nestNode 1001) := by
  rw [strling_parse_nest 1001]
  exact ⟨rfl, rfl⟩

/-- C3 (amended): a text with no `%` character keeps all-false flags and is
parsed whole as the pattern body; but `%flags` is found by `strstr` anywhere
in the text, so a directive after pattern characters is still recognized —
`ab%flags i` sets ignoreCase. -/
theorem C3_directive_scan :
    (∀ text : List Char, '%' ∉ text → parseDirectives text = (defaultFlags, text)) ∧
    (strling_parse ['a', 'b', '%', 'f', 'l', 'a', 'g', 's', ' ', 'i']).flags =
      ⟨true, false, false, false, false⟩ :=
  ⟨fun _ h => parseDirectives_of_no_percent h, by simp⟩

/-- C3 counterexample: the claim says a `%flags` occurring only after pattern
characters leaves flags all-false, but `Parse "ab%flags i"` turns
ignoreCase on. -/
theorem C3_counterexample :
    (strling_parse ['a', 'b', '%', 'f', 'l', 'a', 'g', 's', ' ', 'i']).flags.ignoreCase =
      true := by
  simp

/-- C3 witness: the no-`%` half of `C3_directive_scan` at the text `ab`. -/
theorem C3_directive_scan_witness :
    parseDirectives ['a', 'b'] = (defaultFlags, ['a', 'b']) :=
  C3_directive_scan.1 ['a', 'b'] (by decide)

/-- C4 (amended): duplicate flag letters are idempotent, but an unknown
letter terminates the letter run rather than being skipped: in
`%flags izm` the `i` is applied and the `m` after the unknown `z` is not,
so multiline stays false. -/
theorem C4_letter_run :
    (∀ (fl : Flags) (c : Char),
      applyFlagLetter (applyFlagLetter fl c) c = applyFlagLetter fl c) ∧
    (strling_parse ['%', 'f', 'l', 'a', 'g', 's', ' ', 'i', 'z', 'm']).flags =
      ⟨true, false, false, false, false⟩ :=
  ⟨applyFlagLetter_idem, by simp⟩

/-- C4 counterexample: the claim says `%flags izm` sets both ignoreCase and
multiline; the code leaves multiline false because the unknown `z` ends the
letter run. -/
theorem C4_counterexample :
    (strling_parse ['%', 'f', 'l', 'a', 'g', 's', ' ', 'i', 'z', 'm']).flags.multiline =
      false := by
  simp

/-- C5 (amended): a `{` that does not open a valid quantifier body is
backtracked to a literal `{` only when an atom precedes it — `a{z}`
parses as the sequence `a`, `{`, `z`, `}` — while at the start of a
sequence, where no atom precedes, `{z}` is rejected with "Invalid
quantifier - nothing to quantify" at offset 0 rather than parsed
literally. -/
theorem C5_brace_backtrack :
    (strling_parse ['a', '\x7b', 'z', '\x7d']).error = none ∧
    (strling_parse ['a', '\x7b', 'z', '\x7d']).root =
      some (Node.seq [Node.lit ['a'], Node.lit ['\x7b'], Node.lit ['z'],
        Node.lit ['\x7d']]) ∧
    (strling_parse ['\x7b', 'z', '\x7d']).error = some ⟨msgInvalidQuantNothing, 0⟩ :=
  ⟨by simp, by simp, by simp⟩

/-- C5 counterexample: the claim says `Parse "{z}"` succeeds with the brace
as a literal; the code reports a diagnostic. -/
theorem C5_counterexample :
    (strling_parse ['\x7b', 'z', '\x7d']).error.isSome = true := by
  simp

/-- C6 (amended): a leading `|`, a trailing `|` at end of input, and two
adjacent `|` each produce an alternation diagnostic, but a `|` immediately
before `)` does not: `(a|)` parses successfully, the missing right branch
becoming an empty sequence. -/
theorem C6_alternation_diagnostics :
    (strling_parse ['|', 'a']).error = some ⟨msgAltLeft, 0⟩ ∧
    (strling_parse ['a', '|']).error = some ⟨msgAltRight, 2⟩ ∧
    (strling_parse ['a', '|', '|', 'b']).error = some ⟨msgAltRight, 2⟩ ∧
    (strling_parse ['(', 'a', '|', ')']).error = none :=
  ⟨by simp, by simp, by simp, by simp⟩

/-- C6 counterexample: the claim says `Parse "(a|)"` fails with an
alternation diagnostic; the code succeeds, producing a group whose
alternation has `a` and an empty sequence as branches. -/
theorem C6_counterexample :
    (strling_parse ['(', 'a', '|', ')']).error = none ∧
    (strling_parse ['(', 'a', '|', ')']).root =
      some (Node.group true (some (Node.alt [Node.lit ['a'], Node.seq []]))
        none false) :=
  ⟨by simp, by simp⟩

/-- C7: the spec says `\0` yields a literal NUL character.  The code builds
the one-character buffer `"\0"`, which as a C string is empty: outside a
class the result is a Literal whose string is empty, and inside a class a
class Literal item with an empty string — not a single U+0000. -/
theorem C7_backslash0_empty :
    (strling_parse ['\\', '0']).error = none ∧
    (strling_parse ['\\', '0']).root = some (Node.lit []) ∧
    (strling_parse ['[', '\\', '0', ']']).root =
      some (Node.charClass false [ClassItem.lit []]) :=
  ⟨by simp, by simp, by simp⟩

/-- C8: first-diagnostic latching — once the parser's error field is set,
`parser_set_error` leaves the state unchanged, so the first diagnostic
(message and offset) is the one the parse returns. -/
theorem C8_error_latching (s : PState) (msg : String) (p : Nat)
    (h : s.error.isSome = true) : parserSetError s msg p = s :=
  parserSetError_latch s msg p h

/-- C8 witness: a state already carrying a diagnostic is untouched by a
later `parser_set_error`. -/
theorem C8_error_latching_witness :
    parserSetError ⟨[], 0, false, 0, 0, [], some ⟨msgAltLeft, 0⟩⟩ msgAltRight 5 =
      ⟨[], 0, false, 0, 0, [], some ⟨msgAltLeft, 0⟩⟩ :=
  C8_error_latching ⟨[], 0, false, 0, 0, [], some ⟨msgAltLeft, 0⟩⟩ msgAltRight 5 rfl

/-- C9: a named group `(?<name>...)`, named backreference `\k<name>`, or
Unicode property `\p{prop}` whose name text is 256 characters or longer is
rejected with a diagnostic even though the closing delimiter is present:
the reader stops after 255 characters, so the delimiter check fails. -/
theorem C9_long_name_unterminated :
    (∀ name : List Char, 256 ≤ name.length →
      (∀ c ∈ name, ¬ c = '>' ∧ ¬ c = '\x00' ∧ ¬ c = '%') →
      name.head? ≠ some '=' → name.head? ≠ some '!' →
      (strling_parse ('(' :: '?' :: '<' :: (name ++ ['>', 'x', ')']))).error.isSome =
        true) ∧
    (∀ name : List Char, 256 ≤ name.length →
      (∀ c ∈ name, ¬ c = '>' ∧ ¬ c = '\x00' ∧ ¬ c = '%') →
      (strling_parse ('\\' :: 'k' :: '<' :: (name ++ ['>']))).error.isSome = true) ∧
    (∀ prop : List Char, 256 ≤ prop.length →
      (∀ c ∈ prop, ¬ c = '\x7d' ∧ ¬ c = '\x00' ∧ ¬ c = '%') →
      (strling_parse ('\\' :: 'p' :: '\x7b' :: (prop ++ ['\x7d']))).error.isSome =
        true) :=
  ⟨strling_group_name_overflow, strling_named_backref_overflow,
    strling_uniprop_overflow⟩

set_option maxRecDepth 4000 in
/-- C9 witness: a named group whose 256-character name `aa...a` is properly
closed by `>` still draws a diagnostic. -/
theorem C9_long_name_unterminated_witness :
    (strling_parse
      ('(' :: '?' :: '<' :: (List.replicate 256 'a' ++ ['>', 'x', ')']))).error.isSome =
      true :=
  C9_long_name_unterminated.1 (List.replicate 256 'a') (by decide) (by decide)
    (by decide) (by decide)

/-- C10: `parse_quant_if_any` inspects the character directly at the cursor
before any whitespace skipping, so a quantifier character separated from its
atom by extended-mode whitespace does not quantify it: with `%flags x`,
parsing `a *` yields the sequence `a`, `*` (two literals, no Quant node). -/
theorem C10_quantifier_adjacency :
    (∀ (s : PState) (child : Option Node),
      cursorPeek s 0 ≠ '*' → cursorPeek s 0 ≠ '+' → cursorPeek s 0 ≠ '?' →
      cursorPeek s 0 ≠ '\x7b' → parseQuantIfAny s child = (child, s)) ∧
    ((strling_parse ['%', 'f', 'l', 'a', 'g', 's', ' ', 'x', '\n', 'a', ' ', '*']).error =
      none ∧
     (strling_parse ['%', 'f', 'l', 'a', 'g', 's', ' ', 'x', '\n', 'a', ' ', '*']).root =
      some (Node.seq [Node.lit ['a'], Node.lit ['*']])) :=
  ⟨fun s child => parseQuantIfAny_no_quant_char s child, by exact ⟨by simp, by simp⟩⟩

/-- C10 witness: a non-quantifier character at the cursor leaves
`parse_quant_if_any` a no-op. -/
theorem C10_quantifier_adjacency_witness :
    parseQuantIfAny ⟨['a'], 3, true, 0, 0, [], none⟩ (some Node.dot) =
      (some Node.dot, ⟨['a'], 3, true, 0, 0, [], none⟩) :=
  C10_quantifier_adjacency.1 ⟨['a'], 3, true, 0, 0, [], none⟩ (some Node.dot)
    (by decide) (by decide) (by decide) (by decide)

end STRling
